import Mathlib

/-!
Verification development for the qr_ai_art repository: a shallow embedding of
the scannability-constrained compositing engine (src/qr_ai_art.py), the
contrast-enforcement blender, strategy selector, task orchestrator and result
cache (src/web_app.py), together with theorems settling the spec claims.

Images are modelled as functions from pixel coordinates to channel values;
PIL's integer pixel arithmetic (Blend.c truncation, Paste.c compositing,
ImageEnhance degenerate-image blending, the RGB-to-L conversion) is embedded
exactly over the rationals.  Library resampling operations whose kernels the
repository does not implement (Gaussian blur, LANCZOS / NEAREST resize,
rounded-rectangle rasterisation) are parameters of the model, constrained
only by the size and byte-range facts PIL guarantees.
-/

namespace QrArt

/-- One RGB pixel; channels are byte values stored as naturals. -/
structure RGB where
  r : Nat
  g : Nat
  b : Nat
deriving DecidableEq, Repr

/-- An RGB image: dimensions plus a pixel function (queried inside bounds). -/
structure Img where
  w : Nat
  h : Nat
  px : Nat → Nat → RGB

/-- A single-channel (grayscale / alpha) image. -/
structure GrayImg where
  w : Nat
  h : Nat
  px : Nat → Nat → Nat

theorem Img.ext_pix {a c : Img} (hw : a.w = c.w) (hh : a.h = c.h)
    (hp : ∀ x y, a.px x y = c.px x y) : a = c := by
  cases a; cases c
  simp only [Img.mk.injEq]
  exact ⟨hw, hh, funext fun x => funext fun y => hp x y⟩

/-- PIL Blend.c on one channel: out = in1 + alpha*(in2-in1), truncated toward
zero; for alpha outside [0,1] the result is clamped to the byte range first. -/
def blendChan (alpha : ℚ) (a b : Nat) : Nat :=
  if 0 ≤ alpha ∧ alpha ≤ 1 then
    Int.toNat (Int.floor ((a : ℚ) + alpha * ((b : ℚ) - (a : ℚ))))
  else
    if (a : ℚ) + alpha * ((b : ℚ) - (a : ℚ)) ≤ 0 then 0
    else if 255 ≤ (a : ℚ) + alpha * ((b : ℚ) - (a : ℚ)) then 255
    else Int.toNat (Int.floor ((a : ℚ) + alpha * ((b : ℚ) - (a : ℚ))))

/-- Channel-wise PIL blend of two pixels. -/
def blendRGB (alpha : ℚ) (p q : RGB) : RGB :=
  ⟨blendChan alpha p.r q.r, blendChan alpha p.g q.g, blendChan alpha p.b q.b⟩

/-- PIL Image.blend(im1, im2, alpha). -/
def imgBlend (alpha : ℚ) (im1 im2 : Img) : Img :=
  ⟨im1.w, im1.h, fun x y => blendRGB alpha (im1.px x y) (im2.px x y)⟩

/-- PIL RGB-to-L conversion: L = (19595 R + 38470 G + 7471 B + 32768) >> 16. -/
def lumaL (p : RGB) : Nat :=
  (19595 * p.r + 38470 * p.g + 7471 * p.b + 32768) / 65536

/-- PIL convert("L") of an RGB image (alpha, when present, is ignored). -/
def convertL (im : Img) : GrayImg :=
  ⟨im.w, im.h, fun x y => lumaL (im.px x y)⟩

/-- PIL Paste.c mask blending on one channel, as used by Image.composite:
mask 255 selects image1, mask 0 selects image2. -/
def compositeChan (m a b : Nat) : Nat :=
  (a * m + b * (255 - m)) / 255

/-- PIL Image.composite(image1, image2, mask). -/
def imgComposite (im1 im2 : Img) (mask : GrayImg) : Img :=
  ⟨im1.w, im1.h, fun x y =>
    ⟨compositeChan (mask.px x y) (im1.px x y).r (im2.px x y).r,
     compositeChan (mask.px x y) (im1.px x y).g (im2.px x y).g,
     compositeChan (mask.px x y) (im1.px x y).b (im2.px x y).b⟩⟩

/-- All pixels of an image in row-major order (ImageStat's population). -/
def pixList (im : Img) : List RGB :=
  (List.range im.h).flatMap fun y => (List.range im.w).map fun x => im.px x y

/-- ImageStat.Stat(...).mean for one channel, as an exact rational. -/
def statMeanChan (f : RGB → Nat) (im : Img) : ℚ :=
  (((pixList im).map f).sum : ℚ) / ((im.w * im.h : Nat) : ℚ)

/-- Mean of the L-converted image (ImageStat over convert("L")). -/
def statMeanL (im : Img) : ℚ :=
  (((pixList im).map lumaL).sum : ℚ) / ((im.w * im.h : Nat) : ℚ)

/-- ImageEnhance.Brightness: blend from a black degenerate image. -/
def brightnessEnhance (factor : ℚ) (im : Img) : Img :=
  { im with px := fun x y => blendRGB factor ⟨0, 0, 0⟩ (im.px x y) }

/-- ImageEnhance.Contrast: blend from a uniform gray image whose level is
int(mean_of_L + 0.5). -/
def contrastEnhance (factor : ℚ) (im : Img) : Img :=
  let mean : Nat := Int.toNat (Int.floor (statMeanL im + 1/2))
  { im with px := fun x y => blendRGB factor ⟨mean, mean, mean⟩ (im.px x y) }

/-- ImageEnhance.Color: blend from the per-pixel grayscale degenerate image. -/
def colorEnhance (factor : ℚ) (im : Img) : Img :=
  { im with px := fun x y =>
      let l := lumaL (im.px x y)
      blendRGB factor ⟨l, l, l⟩ (im.px x y) }

/-- Python's round() (banker's rounding, ties to even) on a rational. -/
def pyRound (q : ℚ) : ℤ :=
  let f := Int.floor q
  if q - (f : ℚ) = 1/2 then (if f % 2 = 0 then f else f + 1) else round q

/-- Ambient entropy available to the process (RNG draws and the like).
The compositing code never consults it; threading it through the model lets
determinism be stated as independence from this argument. -/
def Env : Type := Nat → Nat

/-- External library resampling primitives used by the repository but not
implemented in it (PIL Gaussian blur, LANCZOS and NEAREST resampling,
ImageDraw rounded rectangles).  They are opaque pure functions; the Prop
fields record only the size and byte-range facts PIL guarantees. -/
structure Prims where
  gaussianBlur : ℚ → Img → Img
  centerCropResize : Nat → Img → Img
  fitResample : Nat → Img → Img
  roundedMask : Nat → ℤ → GrayImg
  resizeNearestRGBA : Nat → Nat → Img → GrayImg → Img × GrayImg
  resizeNearest : Nat → Nat → Img → Img
  gaussianBlurGray : ℚ → GrayImg → GrayImg
  gaussianBlur_w : ∀ r im, (gaussianBlur r im).w = im.w
  gaussianBlur_h : ∀ r im, (gaussianBlur r im).h = im.h
  centerCropResize_w : ∀ s im, (centerCropResize s im).w = s
  centerCropResize_h : ∀ s im, (centerCropResize s im).h = s
  gaussianBlurGray_le : ∀ r m x y, (gaussianBlurGray r m).px x y ≤ 255

/-- Source `_clamp01`: clamp a value into [0, 1]. -/
def clamp01 (value : ℚ) : ℚ := max 0 (min 1 value)

/-- Source `Style` dataclass of src/qr_ai_art.py. -/
structure Style where
  dark_alpha : ℚ
  light_alpha : ℚ
  rounded_radius : ℤ
  preserve_finders : Bool
  strength : ℚ
  texture : ℚ
  mode : String

/-- Source `_is_in_square` (Python ints, hence ℤ). -/
def is_in_square (x y left top size : ℤ) : Bool :=
  decide (left ≤ x) && decide (x < left + size) &&
    decide (top ≤ y) && decide (y < top + size)

/-- Source `_is_finder_or_separator`: the three 9x9 corner zones
(7-module finder plus 1-module separator ring), offset by the border. -/
def is_finder_or_separator (x y : ℤ) (n border : ℤ) : Bool :=
  let finder : ℤ := 7
  let sep : ℤ := 1
  let size := finder + 2 * sep
  let tl_left := border - sep
  let tl_top := border - sep
  let tr_left := (n - border) - finder + 0 - sep
  let tr_top := border - sep
  let bl_left := border - sep
  let bl_top := (n - border) - finder + 0 - sep
  is_in_square x y tl_left tl_top size ||
    is_in_square x y tr_left tr_top size ||
    is_in_square x y bl_left bl_top size

/-- Padding step of source `_qr_matrix`: the inner n x n grid produced by the
external qrcode library is placed at offset `border` inside an all-False
grid of side n + 2*border.  The inner grid itself (the external library's
output) is a parameter.  Returns (side, bit at row y column x). -/
def qrMatrixPad (n : Nat) (inner : Nat → Nat → Bool) (border : Nat) :
    Nat × (Nat → Nat → Bool) :=
  (n + 2 * border,
   fun y x =>
     if border ≤ y ∧ y < n + border ∧ border ≤ x ∧ x < n + border then
       inner (y - border) (x - border)
     else false)

/-- Source `_make_placeholder_background`: deterministic vertical gradient
(rows from (20,70,25) toward (50,190,60)) followed by a light blur; depends
only on the requested size, never on the ambient entropy. -/
def make_placeholder_background (prims : Prims) (size : Nat) (env : Env) : Img :=
  let base : Img :=
    ⟨size, size, fun _ y =>
      let t : ℚ := (y : ℚ) / (max 1 (size - 1) : Nat)
      ⟨Int.toNat (Int.floor (20 + 30 * t)),
       Int.toNat (Int.floor (70 + 120 * t)),
       Int.toNat (Int.floor (25 + 35 * t))⟩⟩
  prims.gaussianBlur (max 1 (size / 320) : Nat) base

/-- Source `_reduce_texture`: blend the region toward its mean colour; a
texture of 0 yields the flat mean fill, 1 keeps the original region. -/
def reduce_texture (region : Img) (texture : ℚ) : Img :=
  let t := clamp01 texture
  if 999/1000 ≤ t then region
  else
    let mean : RGB :=
      ⟨Int.toNat (pyRound (statMeanChan RGB.r region)),
       Int.toNat (pyRound (statMeanChan RGB.g region)),
       Int.toNat (pyRound (statMeanChan RGB.b region))⟩
    imgBlend t ⟨region.w, region.h, fun _ _ => mean⟩ region

/-- ImageDraw.rectangle with an inclusive bounding box (PIL draws both
corners), clipped implicitly by only ever querying in-bounds pixels. -/
def drawRect (im : Img) (x0 y0 x1 y1 : Nat) (col : RGB) : Img :=
  { im with px := fun x y =>
      if x0 ≤ x ∧ x ≤ x1 ∧ y0 ≤ y ∧ y ≤ y1 then col else im.px x y }

/-- Image.crop with an exclusive right/bottom edge: a w x h window. -/
def cropImg (im : Img) (x0 y0 w h : Nat) : Img :=
  ⟨w, h, fun x y => im.px (x0 + x) (y0 + y)⟩

/-- Image.paste of a patch at (x0, y0); covers exactly the patch extent. -/
def pasteImg (im : Img) (x0 y0 : Nat) (patch : Img) : Img :=
  { im with px := fun x y =>
      if x0 ≤ x ∧ x < x0 + patch.w ∧ y0 ≤ y ∧ y < y0 + patch.h then
        patch.px (x - x0) (y - y0)
      else im.px x y }

/-- Dark-module branch of the `generate_art_qr` loop: brightness factor
0.35 + (1 - strength)*0.3, then contrast 1.1. -/
def darkModuleRender (region : Img) (strength : ℚ) : Img :=
  let factor : ℚ := 7/20 + (1 - strength) * (3/10)
  let region := brightnessEnhance factor region
  contrastEnhance (11/10) region

/-- Light-module branch of the `generate_art_qr` loop: brightness factor
1.65 + (strength - 0.5)*0.5, then colour 0.9. -/
def lightModuleRender (region : Img) (strength : ℚ) : Img :=
  let factor : ℚ := 33/20 + (strength - 1/2) * (1/2)
  let region := brightnessEnhance factor region
  colorEnhance (9/10) region

/-- Body of the per-module loop of `generate_art_qr`: finder-zone modules are
drawn as pure black/white rectangles when preserve_finders is set, all other
modules crop the pristine background, re-light it per the module bit and
paste the result back. -/
def moduleStep (matrix : Nat → Nat → Bool) (modules border module_px : Nat)
    (preserve : Bool) (strength : ℚ) (base_bg : Img)
    (canvas : Img) (m : Nat × Nat) : Img :=
  let mx := m.1
  let my := m.2
  let x0 := mx * module_px
  let y0 := my * module_px
  let x1 := x0 + module_px
  let y1 := y0 + module_px
  if is_finder_or_separator (mx : ℤ) (my : ℤ) (modules : ℤ) (border : ℤ) ∧
      preserve then
    drawRect canvas x0 y0 x1 y1
      (if matrix my mx then ⟨0, 0, 0⟩ else ⟨255, 255, 255⟩)
  else
    let region := cropImg base_bg x0 y0 module_px module_px
    let region :=
      if matrix my mx then darkModuleRender region strength
      else lightModuleRender region strength
    pasteImg canvas x0 y0 region

/-- The module coordinates in the order the source loop visits them:
outer loop over my, inner loop over mx. -/
def rasterModules (modules : Nat) : List (Nat × Nat) :=
  (List.range modules).flatMap fun my =>
    (List.range modules).map fun mx => (mx, my)

/-- The full per-module painting pass of `generate_art_qr`. -/
def paintModules (matrix : Nat → Nat → Bool) (modules border module_px : Nat)
    (preserve : Bool) (strength : ℚ) (base_bg canvas : Img) : Img :=
  (rasterModules modules).foldl
    (moduleStep matrix modules border module_px preserve strength base_bg)
    canvas

/-- ImageOps.fit to a square target; when the input already has the target
size the crop window is the whole image and PIL's resize short-circuits to a
copy, which the model reflects; otherwise the LANCZOS resample runs. -/
def imageOpsFit (prims : Prims) (target : Nat) (im : Img) : Img :=
  if im.w = target ∧ im.h = target then im else prims.fitResample target im

/-- Result of `generate_art_qr`: RGB content plus the rounded-corner alpha
mask when rounded_radius > 0 (putalpha leaves the RGB channels untouched). -/
structure ArtOutput where
  img : Img
  alpha : Option GrayImg

/-- Background preparation of `generate_art_qr` (src/qr_ai_art.py:196-208):
synthesize or centre-crop-and-resize the background, enhance colour by 1.25
and contrast by 1.08, and pre-blur with radius 0.5. -/
def prepBackground (prims : Prims) (background : Option Img) (size : Nat)
    (env : Env) : Img :=
  let bg :=
    match background with
    | none => make_placeholder_background prims size env
    | some b => prims.centerCropResize size b
  let bg := colorEnhance (5/4) bg
  let bg := contrastEnhance (27/25) bg
  prims.gaussianBlur (1/2) bg

/-- Source `generate_art_qr` (src/qr_ai_art.py).  The payload's QR encoding
is represented by the external library's output `(qrN, qrBits)`; `env` is the
ambient entropy, which the function never reads.  Fails exactly like the
source when the module count exceeds the pixel budget. -/
def generate_art_qr (prims : Prims) (qrN : Nat) (qrBits : Nat → Nat → Bool)
    (background : Option Img) (out_size : Nat) (border_modules : Nat)
    (dark_color light_color : RGB) (style : Style) (env : Env) :
    Except String ArtOutput :=
  let padded := qrMatrixPad qrN qrBits border_modules
  let modules := padded.1
  let matrix := padded.2
  let module_px := out_size / modules
  if module_px ≤ 0 then
    Except.error "out_size terlalu kecil untuk QR yang dihasilkan"
  else
    let size := module_px * modules
    let base_bg := prepBackground prims background size env
    let canvas := base_bg
    let strength := clamp01 style.strength
    let canvas :=
      paintModules matrix modules border_modules module_px
        style.preserve_finders strength base_bg canvas
    if 0 < style.rounded_radius then
      let mask := prims.roundedMask size style.rounded_radius
      let canvas := imageOpsFit prims size canvas
      Except.ok ⟨canvas, some mask⟩
    else
      Except.ok ⟨canvas, none⟩

/-- Source `create_finder_mask`: an RGBA image, transparent except over the
finder/separator zone where each module is solid black or white with alpha
255; resized with NEAREST when the module raster does not fill `size`.
Modelled as the RGB plane plus the alpha plane. -/
def create_finder_mask (prims : Prims) (qrN : Nat) (qrBits : Nat → Nat → Bool)
    (size border : Nat) : Img × GrayImg :=
  let padded := qrMatrixPad qrN qrBits border
  let modules := padded.1
  let matrix := padded.2
  let module_px := size / modules
  let real_size := module_px * modules
  let start : Img × GrayImg :=
    (⟨real_size, real_size, fun _ _ => ⟨0, 0, 0⟩⟩,
     ⟨real_size, real_size, fun _ _ => 0⟩)
  let drawn :=
    (rasterModules modules).foldl
      (fun acc (m : Nat × Nat) =>
        let mx : Nat := m.1
        let my : Nat := m.2
        if is_finder_or_separator (mx : ℤ) (my : ℤ) (modules : ℤ)
            (border : ℤ) then
          let x0 := mx * module_px
          let y0 := my * module_px
          let x1 := x0 + module_px
          let y1 := y0 + module_px
          let col : RGB := if matrix my mx then ⟨0, 0, 0⟩ else ⟨255, 255, 255⟩
          (drawRect acc.1 x0 y0 x1 y1 col,
           { acc.2 with px := fun x y =>
               if x0 ≤ x ∧ x ≤ x1 ∧ y0 ≤ y ∧ y ≤ y1 then 255
               else acc.2.px x y })
        else acc)
      start
  if real_size ≠ size then prims.resizeNearestRGBA size size drawn.1 drawn.2
  else drawn

/-! Strategy selector (web_app.py, smart_analyze_prompt). -/

/-- Prefix test on character lists, used for substring search. -/
def charsPrefixOf : List Char → List Char → Bool
  | [], _ => true
  | _ :: _, [] => false
  | a :: as, b :: bs => a == b && charsPrefixOf as bs

/-- Python's `needle in haystack` on strings: contiguous substring search. -/
def containsSubstring (needle : List Char) : List Char → Bool
  | [] => needle.isEmpty
  | c :: rest => charsPrefixOf needle (c :: rest) || containsSubstring needle rest

/-- Case-insensitive keyword hit: Python `k in prompt.lower()` with the
keywords already lowercase. -/
def keywordHit (prompt : String) (k : String) : Bool :=
  containsSubstring k.toList (prompt.toList.map Char.toLower)

/-- The "smooth/structured" keyword set of smart_analyze_prompt. -/
def smooth_keywords : List String :=
  ["truck", "car", "bus", "train", "plane", "ship", "boat", "yacht", "bike",
   "motorcycle", "scooter", "spaceship", "robot", "mech", "cyborg", "machine",
   "face", "portrait", "girl", "boy", "man", "woman", "person", "character",
   "anime", "manga", "waifu", "cartoon", "goddess", "warrior", "elf",
   "princess", "king", "queen", "knight", "human", "body", "skin", "hair",
   "vector", "illustration", "flat", "minimalist", "clean", "simple",
   "3d render", "smooth", "shiny", "glass", "metal", "plastic", "chrome",
   "polished", "neon", "gradient", "studio lighting", "soft", "bokeh",
   "macro", "unreal engine", "blender", "sky", "cloud", "water", "sea",
   "ocean", "beach", "ice", "snow field", "white background", "space",
   "galaxy", "stars", "moon", "sun", "sunset", "sunrise"]

/-- The "textured/organic" keyword set of smart_analyze_prompt. -/
def texture_keywords : List String :=
  ["jungle", "forest", "tree", "plant", "flower", "leaf", "grass", "garden",
   "park", "mountain", "rock", "cliff", "canyon", "cave", "desert", "sand",
   "waterfall", "volcano", "lava", "fire", "smoke", "ruins", "ancient",
   "temple", "castle", "brick", "stone", "wall", "city", "skyscraper",
   "building", "house", "village", "street", "bridge", "aerial", "map",
   "library", "books", "factory", "industrial", "texture", "pattern",
   "mosaic", "stained glass", "circuit", "cyberpunk", "steampunk",
   "intricate", "detailed", "painting", "oil", "sketch", "drawing",
   "graffiti", "grunge", "rust", "old", "dirty"]

/-- Enforcement preset returned by the strategy selector. -/
structure StrategyPreset where
  mode : String
  cn_scale : ℚ
  blend : ℚ
  contrast : ℚ
  sharpness : ℚ
deriving DecidableEq, Repr

/-- The smooth/adaptive preset: structure 1.70, blend 0.15. -/
def smoothPreset : StrategyPreset :=
  ⟨"Smooth/Adaptive", 170/100, 15/100, 105/100, 115/100⟩

/-- The textured/nature preset: structure 1.65, blend 0.00. -/
def texturedPreset : StrategyPreset :=
  ⟨"Textured/Nature", 165/100, 0, 120/100, 150/100⟩

/-- The balanced fallback preset: structure 1.75, blend 0.10. -/
def balancedPreset : StrategyPreset :=
  ⟨"Balanced/General", 175/100, 10/100, 110/100, 125/100⟩

/-- Source `smart_analyze_prompt` (web_app.py): lowercase the prompt, test
substring membership against the two keyword sets, smooth wins the tie. -/
def smart_analyze_prompt (prompt_text : String) : StrategyPreset :=
  let is_smooth := smooth_keywords.any (keywordHit prompt_text)
  let is_textured := texture_keywords.any (keywordHit prompt_text)
  if is_smooth then smoothPreset
  else if is_textured then texturedPreset
  else balancedPreset

/-! Contrast-enforcement blender (web_app.py, blend_qr_contrast). -/

/-- Shadow-variant brightness target: 0.4 - opacity*0.2 (web_app.py:131). -/
def shadow_factor (opacity : ℚ) : ℚ := 2/5 - opacity * (1/5)

/-- Highlight-variant brightness factor: 1.0 + opacity*0.8 (web_app.py:136). -/
def highlight_factor (opacity : ℚ) : ℚ := 1 + opacity * (4/5)

/-- Source `blend_qr_contrast` (web_app.py): global shadow/highlight
compositing selected by the control pattern, blended at `opacity`, then a
finder-only stronger pass inside a blurred finder alpha mask.  The payload's
QR encoding is again the external library output `(qrN, qrBits)`; the finder
mask is rebuilt from it at border 0 as in the source. -/
def blend_qr_contrast (prims : Prims) (ai_image control_image : Img)
    (qrN : Nat) (qrBits : Nat → Nat → Bool) (opacity : ℚ) : Img :=
  let control := convertL (prims.resizeNearest ai_image.w ai_image.h control_image)
  let shadow_layer := brightnessEnhance (max (1/10) (shadow_factor opacity)) ai_image
  let highlight_layer := brightnessEnhance (highlight_factor opacity) ai_image
  let global_contrast := imgComposite highlight_layer shadow_layer control
  let blended := imgBlend opacity ai_image global_contrast
  let finder_img := create_finder_mask prims qrN qrBits ai_image.w 0
  let finder_alpha := prims.gaussianBlurGray 4 finder_img.2
  let finder_pattern := convertL finder_img.1
  let deep_shadow :=
    brightnessEnhance (max (1/20) (shadow_factor opacity - 1/10)) ai_image
  let bright_highlight :=
    brightnessEnhance (highlight_factor opacity + 1/5) ai_image
  let finder_contrast := imgComposite bright_highlight deep_shadow finder_pattern
  let finder_opacity := if 0 < opacity then min 1 (opacity + 15/100) else 0
  let final_finders := imgBlend finder_opacity blended finder_contrast
  imgComposite final_finders blended finder_alpha

/-! Generation task orchestrator (web_app.py, TASKS plus its endpoints). -/

/-- Task lifecycle states of the TASKS table. -/
inductive TaskStatus
  | pending
  | processing
  | completed
  | failed
  | cancelled
deriving DecidableEq, Repr

/-- One TASKS record: status, progress, step, total, result, error. -/
structure TaskRec where
  status : TaskStatus
  progress : Nat
  step : Nat
  total : Nat
  result : Option String
  error : Option String
deriving DecidableEq, Repr

/-- The in-memory TASKS table, keyed by task id. -/
def TaskTable : Type := List (String × TaskRec)

/-- Dictionary lookup TASKS.get(task_id). -/
def lookupTask : TaskTable → String → Option TaskRec
  | [], _ => none
  | e :: rest, id => if e.1 = id then some e.2 else lookupTask rest id

/-- Dictionary item mutation TASKS[task_id] = f(TASKS[task_id]); a no-op on
ids not present. -/
def updateTask (t : TaskTable) (id : String) (f : TaskRec → TaskRec) :
    TaskTable :=
  t.map fun e => if e.1 = id then (e.1, f e.2) else e

/-- HTTP responses of the progress/cancel endpoints, abstracted to the three
shapes the source produces. -/
inductive HttpResponse
  | okCancelled
  | okTask (rec : TaskRec)
  | notFound
deriving DecidableEq, Repr

/-- Source `cancel_endpoint` (web_app.py:1394): if the id is present its
status is overwritten with cancelled, whatever it was; the response is the
success body in every case. -/
def cancel_endpoint (tasks : TaskTable) (task_id : String) :
    TaskTable × HttpResponse :=
  (if (lookupTask tasks task_id).isSome then
     updateTask tasks task_id fun r => { r with status := TaskStatus.cancelled }
   else tasks,
   HttpResponse.okCancelled)

/-- Source `progress_endpoint` (web_app.py:1387): 404 on unknown ids, the
full record otherwise. -/
def progress_endpoint (tasks : TaskTable) (task_id : String) : HttpResponse :=
  match lookupTask tasks task_id with
  | none => HttpResponse.notFound
  | some r => HttpResponse.okTask r

/-- Completion write of `run_ai_task` (web_app.py:1315, 1344-1346): after
generation the worker checks the status and returns without writing when it
observes cancelled; otherwise it stores the artifact and sets completed with
progress 100. -/
def worker_complete (tasks : TaskTable) (task_id : String)
    (img_b64 : String) : TaskTable :=
  if (lookupTask tasks task_id).map TaskRec.status = some TaskStatus.cancelled
  then tasks
  else
    updateTask tasks task_id fun r =>
      { r with result := some img_b64, status := TaskStatus.completed,
               progress := 100 }

/-- Per-step callback of `run_ai_task` (web_app.py:1264-1272): raise the
cancellation signal when the status is cancelled, otherwise update step and
progress. -/
def progress_callback (tasks : TaskTable) (task_id : String) (step : Nat) :
    Except Unit TaskTable :=
  if (lookupTask tasks task_id).map TaskRec.status = some TaskStatus.cancelled
  then Except.error ()
  else
    Except.ok (updateTask tasks task_id fun r =>
      let current_step := step + 1
      { r with step := current_step,
               progress := current_step * 100 / r.total })

/-! Result cache (web_app.py, RESULT_CACHE and the /generate endpoint). -/

/-- A /generate request: the form fields (request.form) and the optionally
uploaded background image bytes (request.files, absent from the form). -/
structure GenRequest where
  form : List (String × String)
  file : Option (List Nat)
deriving DecidableEq, Repr

/-- Ordering used by Python's sorted() on (key, value) string pairs. -/
def kvLe (a b : String × String) : Bool :=
  if a.1 = b.1 then !decide (b.2 < a.2) else decide (a.1 < b.1)

/-- Insertion sort of the form items, modelling sorted(request.form.items()). -/
def sortForm : List (String × String) → List (String × String)
  | [] => []
  | x :: xs => insertKV x (sortForm xs)
where
  insertKV (x : String × String) : List (String × String) → List (String × String)
    | [] => [x]
    | y :: ys => if kvLe x y then x :: y :: ys else y :: insertKV x ys

/-- Serialisation hashed by the /generate cache check (web_app.py:1432):
sorted form items joined as "k:v" with "|" separators.  The uploaded file is
deliberately not part of it (the source comments: file uploads are excluded
from the hash). -/
def form_fingerprint (form : List (String × String)) : String :=
  String.intercalate "|" ((sortForm form).map fun kv => kv.1 ++ ":" ++ kv.2)

/-- Cache key of a request: the md5 hex digest of the form fingerprint.  The
digest function itself is the external hashlib primitive, passed in as a
parameter. -/
def cache_key (md5hex : String → String) (req : GenRequest) : String :=
  md5hex (form_fingerprint req.form)

/-- Lookup in the RESULT_CACHE map. -/
def lookupCache : List (String × String) → String → Option String
  | [], _ => none
  | e :: rest, k => if e.1 = k then some e.2 else lookupCache rest k

/-- Cache discipline of the /generate endpoint (web_app.py:1424-1441,
1616-1657): hit returns the stored artifact unchanged, miss renders the full
request (including the uploaded file) and stores the artifact under the key.
Returns the new cache and the artifact served. -/
def generate_with_cache (md5hex : String → String)
    (render : GenRequest → String) (cache : List (String × String))
    (req : GenRequest) : List (String × String) × String :=
  let key := cache_key md5hex req
  match lookupCache cache key with
  | some cached => (cache, cached)
  | none => ((key, render req) :: cache, render req)

/-- Whether two requests resolve to the same RESULT_CACHE entry: their cache
keys agree for every choice of the external digest function. -/
def resolvesSameEntry (r1 r2 : GenRequest) : Prop :=
  ∀ md5hex : String → String, cache_key md5hex r1 = cache_key md5hex r2

/-! Supporting lemmas. -/

theorem lookupTask_updateTask (t : TaskTable) (id : String)
    (f : TaskRec → TaskRec) :
    lookupTask (updateTask t id f) id = (lookupTask t id).map f := by
  induction t with
  | nil => rfl
  | cons e rest ih =>
    by_cases h : e.1 = id
    · simp [updateTask, lookupTask, h]
    · simpa [updateTask, lookupTask, h] using ih

/-! Claim C6: the strategy selector. -/

/-- Claim C6: smart_analyze_prompt is a pure function of the prompt text
classifying by case-insensitive substring match against the two fixed keyword
sets; any smooth-keyword hit yields the smooth preset (conditioning 1.70,
blend 0.15) even when a textured keyword also matches; only-textured prompts
yield the textured preset (1.65, 0.00); no hit yields the balanced preset
(1.75, 0.10); and the three example prompts map to smooth, textured and
balanced respectively. -/
theorem c6_strategy_selector :
    (∀ p, smooth_keywords.any (keywordHit p) = true →
        smart_analyze_prompt p = smoothPreset)
    ∧ (∀ p, smooth_keywords.any (keywordHit p) = false →
        texture_keywords.any (keywordHit p) = true →
        smart_analyze_prompt p = texturedPreset)
    ∧ (∀ p, smooth_keywords.any (keywordHit p) = false →
        texture_keywords.any (keywordHit p) = false →
        smart_analyze_prompt p = balancedPreset)
    ∧ smart_analyze_prompt "a portrait of a woman" = smoothPreset
    ∧ smart_analyze_prompt "dense jungle foliage" = texturedPreset
    ∧ smart_analyze_prompt "a red triangle" = balancedPreset
    ∧ smoothPreset.cn_scale = 170/100 ∧ smoothPreset.blend = 15/100
    ∧ texturedPreset.cn_scale = 165/100 ∧ texturedPreset.blend = 0
    ∧ balancedPreset.cn_scale = 175/100 ∧ balancedPreset.blend = 10/100 := by
  refine ⟨fun p h => ?_, fun p h1 h2 => ?_, fun p h1 h2 => ?_, ?_, ?_, ?_,
    rfl, rfl, rfl, rfl, rfl, rfl⟩
  · unfold smart_analyze_prompt
    rw [h]
    simp
  · unfold smart_analyze_prompt
    rw [h1, h2]
    simp
  · unfold smart_analyze_prompt
    rw [h1, h2]
    simp
  · unfold smart_analyze_prompt
    rw [show smooth_keywords.any (keywordHit "a portrait of a woman") = true
      from by decide]
    simp
  · unfold smart_analyze_prompt
    rw [show smooth_keywords.any (keywordHit "dense jungle foliage") = false
      from by decide,
      show texture_keywords.any (keywordHit "dense jungle foliage") = true
      from by decide]
    simp
  · unfold smart_analyze_prompt
    rw [show smooth_keywords.any (keywordHit "a red triangle") = false
      from by decide,
      show texture_keywords.any (keywordHit "a red triangle") = false
      from by decide]
    simp

/-- Witness for C6: the tie-break conjunct applied to a concrete prompt that
contains both a smooth keyword ("woman") and a textured keyword ("jungle"). -/
theorem c6_strategy_selector_witness :
    smart_analyze_prompt "a woman in a jungle" = smoothPreset :=
  c6_strategy_selector.1 "a woman in a jungle" (by decide)

/-! Claim C10: cancelling an unknown task id. -/

/-- Claim C10: a cancel request for an id absent from TASKS leaves the table
unchanged (no entry is created), still answers with the success body, and
never reports not-found, while the status-query endpoint answers 404
not-found for the same unknown id. -/
theorem c10_cancel_unknown_id_silent (tasks : TaskTable) (task_id : String)
    (h : lookupTask tasks task_id = none) :
    (cancel_endpoint tasks task_id).1 = tasks ∧
    (cancel_endpoint tasks task_id).2 = HttpResponse.okCancelled ∧
    progress_endpoint tasks task_id = HttpResponse.notFound := by
  unfold cancel_endpoint progress_endpoint
  rw [h]
  exact ⟨rfl, rfl, rfl⟩

/-- Witness for C10 at the empty task table and a concrete id. -/
theorem c10_cancel_unknown_id_silent_witness :
    (cancel_endpoint [] "nope").1 = [] ∧
    (cancel_endpoint [] "nope").2 = HttpResponse.okCancelled ∧
    progress_endpoint [] "nope" = HttpResponse.notFound :=
  c10_cancel_unknown_id_silent [] "nope" rfl

/-! Claim C1: terminal task statuses. -/

/-- A task record that has already completed, with its artifact stored. -/
def completedTaskRec : TaskRec :=
  ⟨TaskStatus.completed, 100, 30, 30, some "artifact", none⟩

/-- A task record already cancelled. -/
def cancelledTaskRec : TaskRec :=
  ⟨TaskStatus.cancelled, 50, 15, 30, none, none⟩

/-- Counterexample to C1: a cancel request issued after a task has reached
COMPLETED does change its status — cancel_endpoint overwrites the terminal
COMPLETED status with CANCELLED. -/
theorem c1_counterexample :
    completedTaskRec.status = TaskStatus.completed ∧
    (lookupTask (cancel_endpoint [("task-1", completedTaskRec)] "task-1").1
        "task-1").map TaskRec.status = some TaskStatus.cancelled ∧
    TaskStatus.cancelled ≠ TaskStatus.completed := by
  refine ⟨rfl, ?_, by decide⟩
  decide

/-- Amended C1: the cancel endpoint unconditionally overwrites the status of
any existing task with CANCELLED — including tasks already in the terminal
COMPLETED or FAILED states — while the worker's completion path, executed
sequentially, does not overwrite an observed CANCELLED status: it returns
without writing COMPLETED. -/
theorem c1_amended (tasks : TaskTable) (id : String) (r : TaskRec)
    (h : lookupTask tasks id = some r) :
    lookupTask (cancel_endpoint tasks id).1 id
      = some { r with status := TaskStatus.cancelled } ∧
    (∀ img, r.status = TaskStatus.cancelled →
      worker_complete tasks id img = tasks) := by
  constructor
  · unfold cancel_endpoint
    rw [h]
    simp only [Option.isSome_some, if_true]
    rw [lookupTask_updateTask, h]
    rfl
  · intro img hc
    unfold worker_complete
    rw [h]
    simp [hc]

/-- Witness for the amended C1: cancel flips a concrete COMPLETED task to
CANCELLED, and the worker's completion write on a concrete CANCELLED task is
a no-op. -/
theorem c1_amended_witness :
    lookupTask (cancel_endpoint [("t", completedTaskRec)] "t").1 "t"
      = some { completedTaskRec with status := TaskStatus.cancelled } ∧
    worker_complete [("t", cancelledTaskRec)] "t" "img"
      = [("t", cancelledTaskRec)] :=
  ⟨(c1_amended [("t", completedTaskRec)] "t" completedTaskRec (by decide)).1,
   (c1_amended [("t", cancelledTaskRec)] "t" cancelledTaskRec (by decide)).2
     "img" rfl⟩

/-! Claim C9: the result cache fingerprint. -/

/-- Form fields shared by the two counterexample requests. -/
def probeForm : List (String × String) :=
  [("data", "https://example.com"), ("mode", "organic"), ("size", "1024")]

/-- A /generate request with one uploaded background image. -/
def reqWithCat : GenRequest := ⟨probeForm, some [10, 20, 30]⟩

/-- The same form fields with a different uploaded background image. -/
def reqWithDog : GenRequest := ⟨probeForm, some [99, 98, 97]⟩

/-- Counterexample to C9: two /generate requests that differ in a request
parameter — the uploaded background image — nevertheless resolve to the same
cache entry, because the fingerprint is computed from the form items only. -/
theorem c9_counterexample :
    reqWithCat ≠ reqWithDog ∧ resolvesSameEntry reqWithCat reqWithDog :=
  ⟨by decide, fun _ => rfl⟩

/-- Amended C9: the cache key is the md5 digest of the sorted form items
only, so the uploaded file never influences it; a request whose key is
already cached is served the stored artifact with the cache unchanged; and a
miss appends the new entry while every previously stored entry remains
retrievable — the cache is append-only and never invalidated. -/
theorem c9_amended :
    (∀ (md5hex : String → String) form f1 f2,
        cache_key md5hex ⟨form, f1⟩ = cache_key md5hex ⟨form, f2⟩)
    ∧ (∀ (md5hex : String → String) render cache req cached,
        lookupCache cache (cache_key md5hex req) = some cached →
        generate_with_cache md5hex render cache req = (cache, cached))
    ∧ (∀ (md5hex : String → String) render cache req k a,
        lookupCache cache k = some a →
        lookupCache (generate_with_cache md5hex render cache req).1 k
          = some a) := by
  refine ⟨fun _ _ _ _ => rfl, fun md5hex render cache req cached h => ?_,
    fun md5hex render cache req k a h => ?_⟩
  · simp only [generate_with_cache]
    rw [h]
  · simp only [generate_with_cache]
    cases hmiss : lookupCache cache (cache_key md5hex req) with
    | some c2 => exact h
    | none =>
      have hne : cache_key md5hex req ≠ k := by
        intro he
        rw [he, h] at hmiss
        exact Option.noConfusion hmiss
      simp only [lookupCache]
      rw [if_neg hne]
      exact h

/-- Witness for the amended C9: a concrete cache hit returns the stored
artifact even though the request's own rendering would differ. -/
theorem c9_amended_witness :
    generate_with_cache (fun _ => "K") (fun _ => "fresh") [("K", "stored")]
      reqWithCat = ([("K", "stored")], "stored") :=
  c9_amended.2.1 (fun _ => "K") (fun _ => "fresh") [("K", "stored")]
    reqWithCat "stored" rfl

/-! Claim C7: determinism of direct composition. -/

/-- Claim C7: generate_art_qr is a pure function of its inputs — its result
is independent of the ambient entropy, so two evaluations on the same inputs
are identical — and the synthesized placeholder background likewise depends
only on the requested size. -/
theorem c7_generate_art_qr_deterministic (prims : Prims) (qrN : Nat)
    (qrBits : Nat → Nat → Bool) (background : Option Img)
    (out_size border : Nat) (dc lc : RGB) (style : Style) :
    (∀ e1 e2 : Env,
        generate_art_qr prims qrN qrBits background out_size border dc lc
            style e1 =
        generate_art_qr prims qrN qrBits background out_size border dc lc
            style e2)
    ∧ (∀ (size : Nat) (e1 e2 : Env),
        make_placeholder_background prims size e1 =
        make_placeholder_background prims size e2) :=
  ⟨fun _ _ => rfl, fun _ _ _ => rfl⟩

/-! Pixel-arithmetic lemmas. -/

theorem blendChan_zero (a b : Nat) : blendChan 0 a b = a := by
  unfold blendChan
  rw [if_pos ⟨le_refl 0, by norm_num⟩]
  simp

theorem blendChan_one_zero (b : Nat) : blendChan 1 0 b = b := by
  unfold blendChan
  rw [if_pos ⟨by norm_num, le_refl 1⟩]
  simp

theorem blendRGB_zero (p q : RGB) : blendRGB 0 p q = p := by
  cases p with
  | mk r g b => simp [blendRGB, blendChan_zero]

theorem imgBlend_zero (im1 im2 : Img) : imgBlend 0 im1 im2 = im1 :=
  Img.ext_pix rfl rfl fun x y => blendRGB_zero (im1.px x y) (im2.px x y)

theorem compositeChan_self (m a : Nat) (hm : m ≤ 255) :
    compositeChan m a a = a := by
  unfold compositeChan
  have hsum : a * m + a * (255 - m) = a * 255 := by
    rw [← Nat.mul_add, Nat.add_sub_cancel' hm]
  rw [hsum, Nat.mul_div_cancel _ (by norm_num)]

theorem imgComposite_self (im : Img) (mask : GrayImg)
    (hm : ∀ x y, mask.px x y ≤ 255) : imgComposite im im mask = im := by
  refine Img.ext_pix rfl rfl fun x y => ?_
  show (⟨compositeChan (mask.px x y) (im.px x y).r (im.px x y).r,
        compositeChan (mask.px x y) (im.px x y).g (im.px x y).g,
        compositeChan (mask.px x y) (im.px x y).b (im.px x y).b⟩ : RGB)
      = im.px x y
  cases hpx : im.px x y with
  | mk r g b => simp [hpx, compositeChan_self _ _ (hm x y)]

theorem blendChan_eval_interp (alpha : ℚ) (a b n : Nat)
    (h0 : 0 ≤ alpha) (h1 : alpha ≤ 1)
    (hfl : Int.floor ((a : ℚ) + alpha * ((b : ℚ) - (a : ℚ))) = (n : ℤ)) :
    blendChan alpha a b = n := by
  unfold blendChan
  rw [if_pos ⟨h0, h1⟩, hfl]
  simp

theorem blendChan_eval_extrap (alpha : ℚ) (a b n : Nat)
    (hout : ¬(0 ≤ alpha ∧ alpha ≤ 1))
    (hpos : ¬((a : ℚ) + alpha * ((b : ℚ) - (a : ℚ)) ≤ 0))
    (hlt : ¬(255 ≤ (a : ℚ) + alpha * ((b : ℚ) - (a : ℚ))))
    (hfl : Int.floor ((a : ℚ) + alpha * ((b : ℚ) - (a : ℚ))) = (n : ℤ)) :
    blendChan alpha a b = n := by
  unfold blendChan
  rw [if_neg hout, if_neg hpos, if_neg hlt, hfl]
  simp

/-! Claim C4: the blender at opacity zero. -/

/-- Claim C4: blend_qr_contrast called with opacity 0 is an exact no-op for
every input image, control pattern and payload: the output is byte-identical
to the input image, and the finder-enforcement pass (whose blend weight is
forced to 0 when opacity is 0) contributes nothing. -/
theorem c4_blend_qr_contrast_opacity_zero (prims : Prims)
    (ai_image control_image : Img) (qrN : Nat) (qrBits : Nat → Nat → Bool) :
    blend_qr_contrast prims ai_image control_image qrN qrBits 0 = ai_image := by
  simp only [blend_qr_contrast]
  rw [if_neg (lt_irrefl (0 : ℚ)), imgBlend_zero, imgBlend_zero]
  exact imgComposite_self _ _ fun x y => prims.gaussianBlurGray_le _ _ _ _

/-! Claim C8: shadow/highlight factors of the blender. -/

/-- A concrete 1x1 input image of uniform value 200. -/
def grayImage200 : Img := ⟨1, 1, fun _ _ => ⟨200, 200, 200⟩⟩

/-- Counterexample to C8: at opacity 0 the shadow variant is not the
identity — its brightness factor is 0.4, and on a concrete input image the
shadow variant differs from the input (pixel 200 becomes 80). -/
theorem c8_counterexample :
    shadow_factor 0 = 2/5 ∧
    (brightnessEnhance (max (1/10) (shadow_factor 0)) grayImage200).px 0 0
      ≠ grayImage200.px 0 0 := by
  have hf : max (1/10 : ℚ) (shadow_factor 0) = 2/5 := by
    unfold shadow_factor
    norm_num
  refine ⟨by unfold shadow_factor; norm_num, ?_⟩
  rw [hf]
  have h80 : blendChan (2/5) 0 200 = 80 :=
    blendChan_eval_interp _ _ _ _ (by norm_num) (by norm_num) (by norm_num)
  simp [brightnessEnhance, grayImage200, blendRGB, h80]

/-- Amended C8: the applied shadow and highlight brightness factors both move
monotonically away from the identity factor 1 as opacity increases over
[0, 1]; at opacity 0 the highlight variant is exactly the identity (equal to
the input image), while the shadow variant's target factor is 0.4 — darker
than the identity, not approximately it. -/
theorem c8_amended :
    (∀ o1 o2 : ℚ, 0 ≤ o1 → o1 ≤ o2 → o2 ≤ 1 →
        |max (1/10) (shadow_factor o1) - 1| ≤
          |max (1/10) (shadow_factor o2) - 1| ∧
        |highlight_factor o1 - 1| ≤ |highlight_factor o2 - 1|)
    ∧ (∀ im : Img, brightnessEnhance (highlight_factor 0) im = im)
    ∧ shadow_factor 0 = 2/5 := by
  refine ⟨fun o1 o2 h0 h12 h21 => ⟨?_, ?_⟩, fun im => ?_,
    by unfold shadow_factor; norm_num⟩
  · have e1 : max (1/10 : ℚ) (shadow_factor o1) = shadow_factor o1 :=
      max_eq_right (by unfold shadow_factor; linarith)
    have e2 : max (1/10 : ℚ) (shadow_factor o2) = shadow_factor o2 :=
      max_eq_right (by unfold shadow_factor; linarith)
    rw [e1, e2, abs_of_nonpos (by unfold shadow_factor; linarith),
        abs_of_nonpos (by unfold shadow_factor; linarith)]
    unfold shadow_factor
    linarith
  · rw [abs_of_nonneg (by unfold highlight_factor; linarith),
        abs_of_nonneg (by unfold highlight_factor; linarith)]
    unfold highlight_factor
    linarith
  · have h1 : highlight_factor 0 = 1 := by unfold highlight_factor; ring
    rw [h1]
    refine Img.ext_pix rfl rfl fun x y => ?_
    show blendRGB 1 ⟨0, 0, 0⟩ (im.px x y) = im.px x y
    cases hp : im.px x y with
    | mk r g b => simp [blendRGB, blendChan_one_zero]

/-- Witness for the amended C8 at the concrete opacities 0 and 1. -/
theorem c8_amended_witness :
    |max (1/10 : ℚ) (shadow_factor 0) - 1| ≤
      |max (1/10 : ℚ) (shadow_factor 1) - 1| ∧
    |highlight_factor 0 - 1| ≤ |highlight_factor 1 - 1| :=
  c8_amended.1 0 1 (by norm_num) (by norm_num) (by norm_num)

/-! Claim C2: the texture parameter in direct composition. -/

/-- A concrete 2x1 background region whose two pixels differ. -/
def textureProbeRegion : Img :=
  ⟨2, 1, fun x _ => if x = 0 then ⟨100, 100, 100⟩ else ⟨200, 200, 200⟩⟩

/-- Evaluation of the dark-module branch over the probe region at
strength 1: pixel values (33,33,33) and (71,71,71) — still distinct, not a
flat fill. -/
theorem probe_dark_px :
    (darkModuleRender textureProbeRegion 1).px 0 0 = ⟨33, 33, 33⟩ ∧
    (darkModuleRender textureProbeRegion 1).px 1 0 = ⟨71, 71, 71⟩ := by
  have h35 : blendChan (7/20) 0 100 = 35 :=
    blendChan_eval_interp _ _ _ _ (by norm_num) (by norm_num) (by norm_num)
  have h70 : blendChan (7/20) 0 200 = 70 :=
    blendChan_eval_interp _ _ _ _ (by norm_num) (by norm_num) (by norm_num)
  have hbright :
      brightnessEnhance (7/20 + (1 - 1) * (3/10)) textureProbeRegion =
        ⟨2, 1, fun x _ => if x = 0 then ⟨35, 35, 35⟩ else ⟨70, 70, 70⟩⟩ := by
    refine Img.ext_pix rfl rfl fun x y => ?_
    show blendRGB (7/20 + (1 - 1) * (3/10)) ⟨0, 0, 0⟩
        (textureProbeRegion.px x y) = _
    by_cases hx : x = 0 <;>
      simp [textureProbeRegion, hx, blendRGB, h35, h70]
  have hmean :
      statMeanL (⟨2, 1, fun x _ =>
          if x = 0 then ⟨35, 35, 35⟩ else ⟨70, 70, 70⟩⟩ : Img) = 105/2 := by
    simp only [statMeanL, pixList, List.range_succ]
    norm_num [lumaL]
  have hdark : darkModuleRender textureProbeRegion 1 =
      contrastEnhance (11/10)
        ⟨2, 1, fun x _ => if x = 0 then ⟨35, 35, 35⟩ else ⟨70, 70, 70⟩⟩ := by
    simp only [darkModuleRender]
    rw [hbright]
  have h33 : blendChan (11/10) 53 35 = 33 :=
    blendChan_eval_extrap _ _ _ _ (by norm_num) (by norm_num) (by norm_num)
      (by norm_num)
  have h71 : blendChan (11/10) 53 70 = 71 :=
    blendChan_eval_extrap _ _ _ _ (by norm_num) (by norm_num) (by norm_num)
      (by norm_num)
  rw [hdark]
  simp only [contrastEnhance, hmean]
  norm_num [blendRGB]
  rw [show Int.toNat 53 = 53 from rfl]
  exact ⟨h33, h71⟩

/-- Claim C2 as a code bug: generate_art_qr never invokes reduce_texture, so
the output is entirely independent of style.texture; on the concrete probe
region a dark non-finder module rendered at texture 0, strength 1 is not one
flat fill (its pixels stay distinct), whereas the repository's own
reduce_texture helper at texture 0 would indeed flatten that region to its
uniform mean colour — the flattening the spec describes is implemented but
never wired into the composition loop. -/
theorem c2_texture_parameter_never_applied :
    (∀ prims qrN qrBits bg sz border dc lc da la rr pf s m env (t t' : ℚ),
      generate_art_qr prims qrN qrBits bg sz border dc lc
          ⟨da, la, rr, pf, s, t, m⟩ env =
      generate_art_qr prims qrN qrBits bg sz border dc lc
          ⟨da, la, rr, pf, s, t', m⟩ env)
    ∧ (darkModuleRender textureProbeRegion 1).px 0 0
        ≠ (darkModuleRender textureProbeRegion 1).px 1 0
    ∧ (∀ x y, (reduce_texture textureProbeRegion 0).px x y
        = ⟨150, 150, 150⟩) := by
  refine ⟨fun _ _ _ _ _ _ _ _ _ _ _ _ _ _ _ _ _ => rfl, ?_, ?_⟩
  · rw [probe_dark_px.1, probe_dark_px.2]
    decide
  · intro x y
    have hmr : statMeanChan RGB.r textureProbeRegion = 150 := by
      norm_num [statMeanChan, pixList, textureProbeRegion, List.range_succ]
    have hmg : statMeanChan RGB.g textureProbeRegion = 150 := by
      norm_num [statMeanChan, pixList, textureProbeRegion, List.range_succ]
    have hmb : statMeanChan RGB.b textureProbeRegion = 150 := by
      norm_num [statMeanChan, pixList, textureProbeRegion, List.range_succ]
    have hpy : Int.toNat (pyRound (150 : ℚ)) = 150 := by
      unfold pyRound
      norm_num
      rfl
    simp only [reduce_texture]
    rw [show clamp01 (0 : ℚ) = 0 from by norm_num [clamp01]]
    rw [if_neg (by norm_num : ¬(999/1000 : ℚ) ≤ 0)]
    rw [hmr, hmg, hmb]
    show blendRGB 0 ⟨Int.toNat (pyRound (150 : ℚ)), Int.toNat (pyRound (150 : ℚ)),
        Int.toNat (pyRound (150 : ℚ))⟩ (textureProbeRegion.px x y) = _
    rw [blendRGB_zero, hpy]

/-! Geometry of the painting loop, toward claims C3 and C5. -/

theorem moduleStep_w (matrix : Nat → Nat → Bool)
    (modules border module_px : Nat) (preserve : Bool) (strength : ℚ)
    (base_bg canvas : Img) (m : Nat × Nat) :
    (moduleStep matrix modules border module_px preserve strength base_bg
      canvas m).w = canvas.w := by
  simp only [moduleStep]
  split <;> rfl

theorem moduleStep_h (matrix : Nat → Nat → Bool)
    (modules border module_px : Nat) (preserve : Bool) (strength : ℚ)
    (base_bg canvas : Img) (m : Nat × Nat) :
    (moduleStep matrix modules border module_px preserve strength base_bg
      canvas m).h = canvas.h := by
  simp only [moduleStep]
  split <;> rfl

theorem foldl_moduleStep_w (matrix : Nat → Nat → Bool)
    (modules border module_px : Nat) (preserve : Bool) (strength : ℚ)
    (base_bg : Img) (L : List (Nat × Nat)) (canvas : Img) :
    (L.foldl (moduleStep matrix modules border module_px preserve strength
        base_bg) canvas).w = canvas.w := by
  induction L generalizing canvas with
  | nil => rfl
  | cons m rest ih => rw [List.foldl_cons, ih, moduleStep_w]

theorem foldl_moduleStep_h (matrix : Nat → Nat → Bool)
    (modules border module_px : Nat) (preserve : Bool) (strength : ℚ)
    (base_bg : Img) (L : List (Nat × Nat)) (canvas : Img) :
    (L.foldl (moduleStep matrix modules border module_px preserve strength
        base_bg) canvas).h = canvas.h := by
  induction L generalizing canvas with
  | nil => rfl
  | cons m rest ih => rw [List.foldl_cons, ih, moduleStep_h]

theorem paintModules_w (matrix : Nat → Nat → Bool)
    (modules border module_px : Nat) (preserve : Bool) (strength : ℚ)
    (base_bg canvas : Img) :
    (paintModules matrix modules border module_px preserve strength base_bg
      canvas).w = canvas.w :=
  foldl_moduleStep_w _ _ _ _ _ _ _ _ _

theorem paintModules_h (matrix : Nat → Nat → Bool)
    (modules border module_px : Nat) (preserve : Bool) (strength : ℚ)
    (base_bg canvas : Img) :
    (paintModules matrix modules border module_px preserve strength base_bg
      canvas).h = canvas.h :=
  foldl_moduleStep_h _ _ _ _ _ _ _ _ _

theorem prepBackground_w (prims : Prims) (background : Option Img)
    (size : Nat) (env : Env) :
    (prepBackground prims background size env).w = size := by
  unfold prepBackground
  rw [prims.gaussianBlur_w]
  cases background with
  | none =>
    show (make_placeholder_background prims size env).w = size
    unfold make_placeholder_background
    rw [prims.gaussianBlur_w]
  | some b =>
    show (prims.centerCropResize size b).w = size
    exact prims.centerCropResize_w size b

theorem prepBackground_h (prims : Prims) (background : Option Img)
    (size : Nat) (env : Env) :
    (prepBackground prims background size env).h = size := by
  unfold prepBackground
  rw [prims.gaussianBlur_h]
  cases background with
  | none =>
    show (make_placeholder_background prims size env).h = size
    unfold make_placeholder_background
    rw [prims.gaussianBlur_h]
  | some b =>
    show (prims.centerCropResize size b).h = size
    exact prims.centerCropResize_h size b

theorem coord_le_of_mul_lt_succ_mul {mpx a c : Nat}
    (h : a * mpx < (c + 1) * mpx) : a ≤ c := by
  by_contra hc
  push_neg at hc
  exact absurd h (not_lt.mpr (Nat.mul_le_mul_right mpx (Nat.succ_le_of_lt hc)))

theorem module_coord_unique {mpx p a c : Nat}
    (h1 : a * mpx ≤ p) (h2 : p < (a + 1) * mpx)
    (h3 : c * mpx ≤ p) (h4 : p < (c + 1) * mpx) : a = c :=
  Nat.le_antisymm
    (coord_le_of_mul_lt_succ_mul (lt_of_le_of_lt h1 h4))
    (coord_le_of_mul_lt_succ_mul (lt_of_le_of_lt h3 h2))

/-- A later module in raster order never touches a pixel that lies inside the
module (mx, my): the inclusive finder rectangle of a later module starts at
or after its own left/top edge, and a paste covers exactly its own module. -/
theorem moduleStep_px_preserve (matrix : Nat → Nat → Bool)
    (modules border module_px : Nat) (preserve : Bool) (strength : ℚ)
    (base_bg canvas : Img) (m : Nat × Nat) (mx my px py : Nat)
    (hx1 : mx * module_px ≤ px) (hx2 : px < (mx + 1) * module_px)
    (hy1 : my * module_px ≤ py) (hy2 : py < (my + 1) * module_px)
    (hlater : my < m.2 ∨ (m.2 = my ∧ mx < m.1)) :
    (moduleStep matrix modules border module_px preserve strength base_bg
      canvas m).px px py = canvas.px px py := by
  obtain ⟨a, c⟩ := m
  dsimp only at hlater
  simp only [moduleStep]
  split
  · show (drawRect canvas (a * module_px) (c * module_px)
        (a * module_px + module_px) (c * module_px + module_px) _).px px py
        = canvas.px px py
    unfold drawRect
    dsimp only
    rw [if_neg]
    rintro ⟨ha1, _, hc1, _⟩
    have hax : a ≤ mx := coord_le_of_mul_lt_succ_mul (lt_of_le_of_lt ha1 hx2)
    have hcy : c ≤ my := coord_le_of_mul_lt_succ_mul (lt_of_le_of_lt hc1 hy2)
    rcases hlater with h | ⟨hceq, hmx⟩
    · exact absurd hcy (not_le.mpr h)
    · exact absurd hax (not_le.mpr hmx)
  · by_cases hbit : matrix c a
    · show (pasteImg canvas (a * module_px) (c * module_px)
          (if matrix c a then _ else _)).px px py = canvas.px px py
      rw [if_pos hbit]
      unfold pasteImg
      dsimp only
      rw [if_neg]
      rintro ⟨ha1, ha2, hc1, hc2⟩
      have hw : (darkModuleRender
          (cropImg base_bg (a * module_px) (c * module_px) module_px
            module_px) strength).w = module_px := rfl
      rw [hw] at ha2
      have hh : (darkModuleRender
          (cropImg base_bg (a * module_px) (c * module_px) module_px
            module_px) strength).h = module_px := rfl
      rw [hh] at hc2
      have hax : a = mx :=
        module_coord_unique ha1 (by rw [Nat.succ_mul]; exact ha2) hx1 hx2
      have hcy : c = my :=
        module_coord_unique hc1 (by rw [Nat.succ_mul]; exact hc2) hy1 hy2
      rcases hlater with h | ⟨hceq, hmx⟩
      · exact absurd (hcy ▸ h) (lt_irrefl my)
      · exact absurd (hax ▸ hmx) (lt_irrefl mx)
    · show (pasteImg canvas (a * module_px) (c * module_px)
          (if matrix c a then _ else _)).px px py = canvas.px px py
      rw [if_neg hbit]
      unfold pasteImg
      dsimp only
      rw [if_neg]
      rintro ⟨ha1, ha2, hc1, hc2⟩
      have hw : (lightModuleRender
          (cropImg base_bg (a * module_px) (c * module_px) module_px
            module_px) strength).w = module_px := rfl
      rw [hw] at ha2
      have hh : (lightModuleRender
          (cropImg base_bg (a * module_px) (c * module_px) module_px
            module_px) strength).h = module_px := rfl
      rw [hh] at hc2
      have hax : a = mx :=
        module_coord_unique ha1 (by rw [Nat.succ_mul]; exact ha2) hx1 hx2
      have hcy : c = my :=
        module_coord_unique hc1 (by rw [Nat.succ_mul]; exact hc2) hy1 hy2
      rcases hlater with h | ⟨hceq, hmx⟩
      · exact absurd (hcy ▸ h) (lt_irrefl my)
      · exact absurd (hax ▸ hmx) (lt_irrefl mx)

/-- Painting the module (mx, my) itself with preserve_finders set writes the
pure finder colour over every pixel of that module. -/
theorem moduleStep_px_own_finder (matrix : Nat → Nat → Bool)
    (modules border module_px : Nat) (strength : ℚ)
    (base_bg canvas : Img) (mx my px py : Nat)
    (hfind : is_finder_or_separator (mx : ℤ) (my : ℤ) (modules : ℤ)
      (border : ℤ) = true)
    (hx1 : mx * module_px ≤ px) (hx2 : px < (mx + 1) * module_px)
    (hy1 : my * module_px ≤ py) (hy2 : py < (my + 1) * module_px) :
    (moduleStep matrix modules border module_px true strength base_bg
      canvas (mx, my)).px px py
      = (if matrix my mx then (⟨0, 0, 0⟩ : RGB) else ⟨255, 255, 255⟩) := by
  simp only [moduleStep]
  rw [if_pos ⟨hfind, trivial⟩]
  unfold drawRect
  dsimp only
  rw [if_pos]
  refine ⟨hx1, ?_, hy1, ?_⟩
  · rw [Nat.succ_mul] at hx2
    exact Nat.le_of_lt hx2
  · rw [Nat.succ_mul] at hy2
    exact Nat.le_of_lt hy2

/-- Folding the painting step over a list of modules that are all strictly
later in raster order than (mx, my) leaves every pixel of (mx, my) alone. -/
theorem foldl_moduleStep_preserve (matrix : Nat → Nat → Bool)
    (modules border module_px : Nat) (preserve : Bool) (strength : ℚ)
    (base_bg : Img) (mx my px py : Nat)
    (hx1 : mx * module_px ≤ px) (hx2 : px < (mx + 1) * module_px)
    (hy1 : my * module_px ≤ py) (hy2 : py < (my + 1) * module_px)
    (L : List (Nat × Nat))
    (hL : ∀ m ∈ L, my < m.2 ∨ (m.2 = my ∧ mx < m.1)) (canvas : Img) :
    (L.foldl (moduleStep matrix modules border module_px preserve strength
      base_bg) canvas).px px py = canvas.px px py := by
  induction L generalizing canvas with
  | nil => rfl
  | cons m rest ih =>
    rw [List.foldl_cons,
      ih (fun m' hm' => hL m' (List.mem_cons_of_mem _ hm')),
      moduleStep_px_preserve matrix modules border module_px preserve strength
        base_bg canvas m mx my px py hx1 hx2 hy1 hy2
        (hL m (List.mem_cons_self _ _))]

/-- Raster-order decomposition: the module list splits around any (mx, my)
inside the grid, and everything after it is strictly later in raster order. -/
theorem rasterModules_decomp (modules mx my : Nat)
    (hmx : mx < modules) (hmy : my < modules) :
    ∃ A B, rasterModules modules = A ++ (mx, my) :: B ∧
      ∀ m ∈ B, my < m.2 ∨ (m.2 = my ∧ mx < m.1) := by
  have hrow : (List.range modules).map (fun x => (x, my)) =
      ((List.range mx).map fun x => (x, my)) ++ (mx, my) ::
        ((List.range (modules - (mx + 1))).map fun i => (mx + 1 + i, my)) := by
    conv_lhs => rw [show modules = mx + 1 + (modules - (mx + 1)) from by omega]
    rw [List.range_add, List.map_append, List.range_succ, List.map_append,
      List.map_map]
    simp [Function.comp_def]
  have hcol : List.range modules = List.range my ++ my ::
      (List.range (modules - (my + 1))).map (fun i => my + 1 + i) := by
    conv_lhs => rw [show modules = my + 1 + (modules - (my + 1)) from by omega]
    rw [List.range_add, List.range_succ]
    simp
  refine ⟨(List.range my).flatMap (fun y => (List.range modules).map
      fun x => (x, y)) ++ ((List.range mx).map fun x => (x, my)),
    ((List.range (modules - (mx + 1))).map fun i => (mx + 1 + i, my)) ++
      ((List.range (modules - (my + 1))).map fun i => my + 1 + i).flatMap
        (fun y => (List.range modules).map fun x => (x, y)), ?_, ?_⟩
  · unfold rasterModules
    have houter : ∀ f : Nat → List (Nat × Nat),
        (List.range modules).flatMap f =
          (List.range my).flatMap f ++ (f my ++
            ((List.range (modules - (my + 1))).map fun i =>
              my + 1 + i).flatMap f) := by
      intro f
      conv_lhs => rw [hcol]
      rw [List.flatMap_append, List.flatMap_cons]
    rw [houter, hrow]
    simp [List.append_assoc]
  · intro m hm
    rcases List.mem_append.mp hm with hm1 | hm2
    · rcases List.mem_map.mp hm1 with ⟨i, _, rfl⟩
      exact Or.inr ⟨rfl, by omega⟩
    · rcases List.mem_flatMap.mp hm2 with ⟨y, hy, hmy2⟩
      rcases List.mem_map.mp hy with ⟨i, _, rfl⟩
      rcases List.mem_map.mp hmy2 with ⟨x, _, rfl⟩
      exact Or.inl (by omega)

/-- Core of claim C3: with preserve_finders set, every pixel of a
finder-zone module in the fully painted canvas carries the pure module
colour, independently of strength, of the background and of the initial
canvas contents. -/
theorem paintModules_finder_px (matrix : Nat → Nat → Bool)
    (modules border module_px : Nat) (strength : ℚ) (base_bg canvas : Img)
    (mx my px py : Nat) (hmx : mx < modules) (hmy : my < modules)
    (hfind : is_finder_or_separator (mx : ℤ) (my : ℤ) (modules : ℤ)
      (border : ℤ) = true)
    (hx1 : mx * module_px ≤ px) (hx2 : px < (mx + 1) * module_px)
    (hy1 : my * module_px ≤ py) (hy2 : py < (my + 1) * module_px) :
    (paintModules matrix modules border module_px true strength base_bg
      canvas).px px py
      = (if matrix my mx then (⟨0, 0, 0⟩ : RGB) else ⟨255, 255, 255⟩) := by
  obtain ⟨A, B, hAB, hB⟩ := rasterModules_decomp modules mx my hmx hmy
  unfold paintModules
  rw [hAB, List.foldl_append, List.foldl_cons,
    foldl_moduleStep_preserve matrix modules border module_px true strength
      base_bg mx my px py hx1 hx2 hy1 hy2 B hB,
    moduleStep_px_own_finder matrix modules border module_px strength base_bg
      _ mx my px py hfind hx1 hx2 hy1 hy2]

/-- Shape of generate_art_qr when the pixel budget suffices: the result is
ok, its RGB content is exactly the painted canvas over the prepared
background (ImageOps.fit short-circuits since the canvas already has the
target size), and the alpha mask is present exactly when rounded_radius is
positive. -/
theorem generate_art_qr_ok (prims : Prims) (qrN : Nat)
    (qrBits : Nat → Nat → Bool) (background : Option Img)
    (out_size border_modules : Nat) (dc lc : RGB) (style : Style) (env : Env)
    (hpos : out_size / (qrN + 2 * border_modules) ≠ 0) :
    generate_art_qr prims qrN qrBits background out_size border_modules dc lc
        style env
      = Except.ok
        ⟨paintModules (qrMatrixPad qrN qrBits border_modules).2
            (qrN + 2 * border_modules) border_modules
            (out_size / (qrN + 2 * border_modules)) style.preserve_finders
            (clamp01 style.strength)
            (prepBackground prims background
              (out_size / (qrN + 2 * border_modules) *
                (qrN + 2 * border_modules)) env)
            (prepBackground prims background
              (out_size / (qrN + 2 * border_modules) *
                (qrN + 2 * border_modules)) env),
         if 0 < style.rounded_radius then
           some (prims.roundedMask
             (out_size / (qrN + 2 * border_modules) *
               (qrN + 2 * border_modules)) style.rounded_radius)
         else none⟩ := by
  have hfit : imageOpsFit prims
      (out_size / (qrN + 2 * border_modules) * (qrN + 2 * border_modules))
      (paintModules (qrMatrixPad qrN qrBits border_modules).2
        (qrN + 2 * border_modules) border_modules
        (out_size / (qrN + 2 * border_modules)) style.preserve_finders
        (clamp01 style.strength)
        (prepBackground prims background
          (out_size / (qrN + 2 * border_modules) *
            (qrN + 2 * border_modules)) env)
        (prepBackground prims background
          (out_size / (qrN + 2 * border_modules) *
            (qrN + 2 * border_modules)) env))
      = paintModules (qrMatrixPad qrN qrBits border_modules).2
        (qrN + 2 * border_modules) border_modules
        (out_size / (qrN + 2 * border_modules)) style.preserve_finders
        (clamp01 style.strength)
        (prepBackground prims background
          (out_size / (qrN + 2 * border_modules) *
            (qrN + 2 * border_modules)) env)
        (prepBackground prims background
          (out_size / (qrN + 2 * border_modules) *
            (qrN + 2 * border_modules)) env) := by
    unfold imageOpsFit
    rw [if_pos]
    rw [paintModules_w, paintModules_h, prepBackground_w, prepBackground_h]
    exact ⟨rfl, rfl⟩
  have hfst : (qrMatrixPad qrN qrBits border_modules).1
      = qrN + 2 * border_modules := rfl
  unfold generate_art_qr
  rw [if_neg (by
    intro hle
    exact hpos (Nat.le_zero.mp hle))]
  simp only [hfst]
  by_cases hr : 0 < style.rounded_radius
  · rw [if_pos hr, if_pos hr, hfit]
  · rw [if_neg hr, if_neg hr]

/-! Claim C5: the pixel-budget error and the effective output size. -/

/-- Claim C5: with modules the padded grid side, direct composition computes
module_px as the floor of out_size / modules, fails with the size-too-small
error exactly when module_px is 0 (producing no output), and otherwise
returns an image exactly module_px * modules pixels square — at most the
requested size, never rounded up, and short of it by less than one module. -/
theorem c5_size_behavior (prims : Prims) (qrN : Nat)
    (qrBits : Nat → Nat → Bool) (background : Option Img)
    (out_size border_modules : Nat) (dc lc : RGB) (style : Style)
    (env : Env) :
    (out_size / (qrN + 2 * border_modules) = 0 →
      generate_art_qr prims qrN qrBits background out_size border_modules dc
          lc style env
        = Except.error "out_size terlalu kecil untuk QR yang dihasilkan")
    ∧ (out_size / (qrN + 2 * border_modules) ≠ 0 →
      ∃ out, generate_art_qr prims qrN qrBits background out_size
            border_modules dc lc style env = Except.ok out ∧
        out.img.w = out_size / (qrN + 2 * border_modules) *
          (qrN + 2 * border_modules) ∧
        out.img.h = out_size / (qrN + 2 * border_modules) *
          (qrN + 2 * border_modules) ∧
        out_size / (qrN + 2 * border_modules) * (qrN + 2 * border_modules)
          ≤ out_size ∧
        out_size < out_size / (qrN + 2 * border_modules) *
          (qrN + 2 * border_modules) + (qrN + 2 * border_modules)) := by
  constructor
  · intro hz
    unfold generate_art_qr
    rw [if_pos]
    show out_size / (qrMatrixPad qrN qrBits border_modules).1 ≤ 0
    show out_size / (qrN + 2 * border_modules) ≤ 0
    rw [hz]
  · intro hpos
    have hmodpos : 0 < qrN + 2 * border_modules := by
      rcases Nat.eq_zero_or_pos (qrN + 2 * border_modules) with h0 | h
      · rw [h0, Nat.div_zero] at hpos
        exact absurd rfl hpos
      · exact h
    refine ⟨_, generate_art_qr_ok prims qrN qrBits background out_size
      border_modules dc lc style env hpos, ?_, ?_, ?_, ?_⟩
    · show (paintModules _ _ _ _ _ _ _ _).w = _
      rw [paintModules_w, prepBackground_w]
    · show (paintModules _ _ _ _ _ _ _ _).h = _
      rw [paintModules_h, prepBackground_h]
    · exact Nat.div_mul_le_self out_size (qrN + 2 * border_modules)
    · have e := Nat.div_add_mod out_size (qrN + 2 * border_modules)
      have hr := Nat.mod_lt out_size hmodpos
      calc out_size
          = (qrN + 2 * border_modules) *
              (out_size / (qrN + 2 * border_modules)) +
              out_size % (qrN + 2 * border_modules) := e.symm
        _ < (qrN + 2 * border_modules) *
              (out_size / (qrN + 2 * border_modules)) +
              (qrN + 2 * border_modules) := Nat.add_lt_add_left hr _
        _ = out_size / (qrN + 2 * border_modules) *
              (qrN + 2 * border_modules) + (qrN + 2 * border_modules) := by
            rw [Nat.mul_comm]

/-! Claim C3: finder zones are painted pure with preserve_finders. -/

/-- Claim C3: for every payload grid, background (or none), output size,
border, colours and style with preserve_finders set, every pixel of a
finder-zone module of the composited output is pure black (0,0,0) or pure
white (255,255,255) according to that module's bit — with no blending, and
independently of strength, texture and the background contents. -/
theorem c3_preserve_finders_pure (prims : Prims) (qrN : Nat)
    (qrBits : Nat → Nat → Bool) (background : Option Img)
    (out_size border_modules : Nat) (dc lc : RGB) (style : Style) (env : Env)
    (hpf : style.preserve_finders = true)
    (mx my px py : Nat)
    (hmpx : out_size / (qrN + 2 * border_modules) ≠ 0)
    (hmx : mx < qrN + 2 * border_modules) (hmy : my < qrN + 2 * border_modules)
    (hfind : is_finder_or_separator (mx : ℤ) (my : ℤ)
      ((qrN + 2 * border_modules : Nat) : ℤ) ((border_modules : Nat) : ℤ)
      = true)
    (hx1 : mx * (out_size / (qrN + 2 * border_modules)) ≤ px)
    (hx2 : px < (mx + 1) * (out_size / (qrN + 2 * border_modules)))
    (hy1 : my * (out_size / (qrN + 2 * border_modules)) ≤ py)
    (hy2 : py < (my + 1) * (out_size / (qrN + 2 * border_modules))) :
    ∃ out, generate_art_qr prims qrN qrBits background out_size border_modules
        dc lc style env = Except.ok out ∧
      out.img.px px py =
        (if (qrMatrixPad qrN qrBits border_modules).2 my mx then
          (⟨0, 0, 0⟩ : RGB) else ⟨255, 255, 255⟩) := by
  refine ⟨_, generate_art_qr_ok prims qrN qrBits background out_size
    border_modules dc lc style env hmpx, ?_⟩
  show (paintModules _ _ _ _ style.preserve_finders _ _ _).px px py = _
  rw [hpf]
  exact paintModules_finder_px (qrMatrixPad qrN qrBits border_modules).2
    (qrN + 2 * border_modules) border_modules
    (out_size / (qrN + 2 * border_modules)) (clamp01 style.strength) _ _
    mx my px py hmx hmy hfind hx1 hx2 hy1 hy2

/-- A concrete, fully evaluable instantiation of the external resampling
primitives, used to apply the universally quantified theorems at concrete
inputs. -/
def idPrims : Prims where
  gaussianBlur := fun _ im => im
  centerCropResize := fun s im => ⟨s, s, im.px⟩
  fitResample := fun s im => ⟨s, s, im.px⟩
  roundedMask := fun s _ => ⟨s, s, fun _ _ => 255⟩
  resizeNearestRGBA := fun w h im a =>
    (⟨w, h, im.px⟩, ⟨w, h, fun x y => min (a.px x y) 255⟩)
  resizeNearest := fun w h im => ⟨w, h, im.px⟩
  gaussianBlurGray := fun _ m => ⟨m.w, m.h, fun x y => min (m.px x y) 255⟩
  gaussianBlur_w := fun _ _ => rfl
  gaussianBlur_h := fun _ _ => rfl
  centerCropResize_w := fun _ _ => rfl
  centerCropResize_h := fun _ _ => rfl
  gaussianBlurGray_le := fun _ _ _ _ => Nat.min_le_right _ _

/-- Witness for C5 at a concrete grid: a 21-module code with border 2
(25 padded modules) errors at out_size 10 and renders 25 pixels square at
out_size 30. -/
theorem c5_size_behavior_witness :
    generate_art_qr idPrims 21 (fun _ _ => true) none 10 2 ⟨0, 0, 0⟩
        ⟨255, 255, 255⟩ ⟨0, 0, 0, true, 1, 1, "sharp"⟩ (fun _ => 0)
      = Except.error "out_size terlalu kecil untuk QR yang dihasilkan" ∧
    ∃ out, generate_art_qr idPrims 21 (fun _ _ => true) none 30 2 ⟨0, 0, 0⟩
        ⟨255, 255, 255⟩ ⟨0, 0, 0, true, 1, 1, "sharp"⟩ (fun _ => 0)
        = Except.ok out ∧
      out.img.w = 30 / (21 + 2 * 2) * (21 + 2 * 2) ∧
      out.img.h = 30 / (21 + 2 * 2) * (21 + 2 * 2) ∧
      30 / (21 + 2 * 2) * (21 + 2 * 2) ≤ 30 ∧
      30 < 30 / (21 + 2 * 2) * (21 + 2 * 2) + (21 + 2 * 2) :=
  ⟨(c5_size_behavior idPrims 21 (fun _ _ => true) none 10 2 ⟨0, 0, 0⟩
      ⟨255, 255, 255⟩ ⟨0, 0, 0, true, 1, 1, "sharp"⟩ (fun _ => 0)).1
    (by decide),
   (c5_size_behavior idPrims 21 (fun _ _ => true) none 30 2 ⟨0, 0, 0⟩
      ⟨255, 255, 255⟩ ⟨0, 0, 0, true, 1, 1, "sharp"⟩ (fun _ => 0)).2
    (by decide)⟩

/-- Witness for C3 at a concrete grid: module (2,2) lies in the top-left
finder zone of a 25-module grid with border 2, and the theorem pins its
pixel to the pure colour of its bit. -/
theorem c3_preserve_finders_pure_witness :
    ∃ out, generate_art_qr idPrims 21 (fun _ _ => true) none 25 2 ⟨0, 0, 0⟩
        ⟨255, 255, 255⟩ ⟨0, 0, 0, true, 1, 1, "sharp"⟩ (fun _ => 0)
        = Except.ok out ∧
      out.img.px 2 2 =
        (if (qrMatrixPad 21 (fun _ _ => true) 2).2 2 2 then
          (⟨0, 0, 0⟩ : RGB) else ⟨255, 255, 255⟩) :=
  c3_preserve_finders_pure idPrims 21 (fun _ _ => true) none 25 2 ⟨0, 0, 0⟩
    ⟨255, 255, 255⟩ ⟨0, 0, 0, true, 1, 1, "sharp"⟩ (fun _ => 0) rfl
    2 2 2 2 (by decide) (by decide) (by decide) (by decide) (by decide)
    (by decide) (by decide) (by decide)

end QrArt


